import Mathlib

/-!
Shallow embedding of the single-object tracking core of CookLabel
(`libs/video_auto_annotation.py`): the Kalman filter (`KalmanFilter`), the
confidence-tiered IoU association loops inside `SingleObjectTracker.update`,
the track state machine, the YOLO annotation sink, and the orchestration in
`VideoAutoAnnotator`.

Conventions of the embedding:
* Python floats are modelled with `ℚ` (exact arithmetic); float literals such
  as `0.05`, `1.2`, `0.1` are the corresponding exact rationals.
* numpy arrays are modelled with `Matrix (Fin n) (Fin m) ℚ`; `np.linalg.inv`
  of the 4×4 innovation covariance is modelled by the adjugate formula
  (`inv4`), which agrees with matrix inversion whenever the determinant is
  nonzero.
* The external YOLO detector is an opaque collaborator: each frame's
  detection list is an input.
* File writing is abstracted: the annotation sink returns the file it would
  write (name and lines) instead of performing I/O.
* Python identifiers are kept where possible, converted to camelCase.
-/

/-- Axis-aligned bounding box `(x1, y1, x2, y2)`, as the source's 4-tuples. -/
structure BBox where
  x1 : ℚ
  y1 : ℚ
  x2 : ℚ
  y2 : ℚ
  deriving DecidableEq, Repr

/-- Source `DetectionBox` dataclass. -/
structure DetectionBox where
  x1 : ℚ
  y1 : ℚ
  x2 : ℚ
  y2 : ℚ
  confidence : ℚ
  classId : ℤ
  className : String
  deriving DecidableEq, Repr

/-- Source `TrackingBox` dataclass. -/
structure TrackingBox where
  trackId : ℕ
  x1 : ℚ
  y1 : ℚ
  x2 : ℚ
  y2 : ℚ
  confidence : ℚ
  classId : ℤ
  className : String
  frameId : ℕ
  deriving DecidableEq, Repr

/-- The bbox tuple `(d.x1, d.y1, d.x2, d.y2)` taken from a detection. -/
def DetectionBox.toBBox (d : DetectionBox) : BBox :=
  ⟨d.x1, d.y1, d.x2, d.y2⟩

/-- Source `SingleObjectTracker.calculate_iou`: intersection-over-union of two
boxes, `0` when they do not overlap and `0` when the union area is zero. -/
def calculateIou (box1 box2 : BBox) : ℚ :=
  let x1 := max box1.x1 box2.x1
  let y1 := max box1.y1 box2.y1
  let x2 := min box1.x2 box2.x2
  let y2 := min box1.y2 box2.y2
  if x2 ≤ x1 ∨ y2 ≤ y1 then 0
  else
    let inter := (x2 - x1) * (y2 - y1)
    let area1 := (box1.x2 - box1.x1) * (box1.y2 - box1.y1)
    let area2 := (box2.x2 - box2.x1) * (box2.y2 - box2.y1)
    let union := area1 + area2 - inter
    if union = 0 then 0 else inter / union

/-- Track lifecycle state, the source's `'tracked'` / `'lost'` strings. -/
inductive TrackState where
  | tracked
  | lost
  deriving DecidableEq, Repr

/-- The source's `target_track` dict: last accepted box, class, disappearance
counter, confidence, last frame and lifecycle state. -/
structure Track where
  box : BBox
  classId : ℤ
  className : String
  disappeared : ℕ
  confidence : ℚ
  lastFrame : ℕ
  state : TrackState
  deriving DecidableEq, Repr

/-- One iteration of the first (high-confidence) matching loop in
`SingleObjectTracker.update` (source lines 360–374).  The accumulator is the
running pair `(best_match, best_iou)`.  A same-class detection replaces the
best when its IoU beats both `best_iou` and `high_iou_threshold`; a
different-class detection is taken only while `best_match is None` and its IoU
exceeds `high_iou_threshold * 1.2`. -/
def tier1Step (ref : BBox) (targetClass : ℤ) (hIou : ℚ)
    (acc : Option DetectionBox × ℚ) (d : DetectionBox) : Option DetectionBox × ℚ :=
  let i := calculateIou ref d.toBBox
  if d.classId = targetClass then
    if acc.2 < i ∧ hIou < i then (some d, i) else acc
  else
    if acc.1 = none ∧ hIou * 1.2 < i then (some d, i) else acc

/-- The full first matching loop over the high-confidence detections. -/
def tier1Scan (ref : BBox) (targetClass : ℤ) (hIou : ℚ)
    (dets : List DetectionBox) (acc : Option DetectionBox × ℚ) :
    Option DetectionBox × ℚ :=
  dets.foldl (tier1Step ref targetClass hIou) acc

/-- One iteration of the second and third matching loops (source lines
378–387 and 396–406): only same-class detections are considered, accepted when
the IoU beats both the running best and the given threshold. -/
def tierSameClassStep (ref : BBox) (targetClass : ℤ) (thr : ℚ)
    (acc : Option DetectionBox × ℚ) (d : DetectionBox) : Option DetectionBox × ℚ :=
  let i := calculateIou ref d.toBBox
  if d.classId = targetClass then
    if acc.2 < i ∧ thr < i then (some d, i) else acc
  else acc

/-- A same-class-only matching loop (used for Tier 2 and Tier 3). -/
def tierSameClassScan (ref : BBox) (targetClass : ℤ) (thr : ℚ)
    (dets : List DetectionBox) (acc : Option DetectionBox × ℚ) :
    Option DetectionBox × ℚ :=
  dets.foldl (tierSameClassStep ref targetClass thr) acc

/-- The association part of `SingleObjectTracker.update` (source lines
345–406): detections are split into high (`confidence ≥ high_conf_threshold`)
and low (`low_conf_threshold ≤ confidence < high_conf_threshold`) tiers; the
high tier is scanned first, the low tier only when the first scan produced no
match, and the relaxed recovery scan over both tiers only when there is still
no match, the track is `lost` and `disappeared < 10`. -/
def findMatch (ref : BBox) (targetClass : ℤ) (hIou lIou hConf lConf : ℚ)
    (st : TrackState) (disappeared : ℕ) (dets : List DetectionBox) :
    Option DetectionBox × ℚ :=
  let highs := dets.filter fun d => decide (hConf ≤ d.confidence)
  let lows := dets.filter fun d =>
    decide (lConf ≤ d.confidence) && decide (d.confidence < hConf)
  let acc1 := tier1Scan ref targetClass hIou highs (none, 0)
  let acc2 := if acc1.1 = none then tierSameClassScan ref targetClass lIou lows acc1 else acc1
  let relaxed := max 0.1 (lIou * 0.7)
  if acc2.1 = none ∧ st = TrackState.lost ∧ disappeared < 10 then
    tierSameClassScan ref targetClass relaxed (highs ++ lows) acc2
  else acc2

/-- Entry function of the state transition matrix `F` (source lines 87–96):
each position component advances by its paired velocity component, velocity
components persist. -/
def fEntry (i j : ℕ) : ℚ :=
  if j = i ∨ (i < 4 ∧ j = i + 4) then 1 else 0

/-- The 8×8 state transition matrix `F`. -/
def Fmat : Matrix (Fin 8) (Fin 8) ℚ :=
  Matrix.of fun i j => fEntry i.val j.val

/-- Entry function of the observation matrix `H` (source lines 99–104): only
position and size are observed. -/
def hEntry (i j : ℕ) : ℚ :=
  if j = i then 1 else 0

/-- The 4×8 observation matrix `H`. -/
def Hmat : Matrix (Fin 4) (Fin 8) ℚ :=
  Matrix.of fun i j => hEntry i.val j.val

/-- Entry function of the process noise `Q` (source lines 107–108):
`np.eye(8) * 0.1` with the velocity block further scaled by `0.01`. -/
def qEntry (i j : ℕ) : ℚ :=
  if j = i then (if i < 4 then 0.1 else 0.001) else 0

/-- The 8×8 process noise covariance `Q`. -/
def Qmat : Matrix (Fin 8) (Fin 8) ℚ :=
  Matrix.of fun i j => qEntry i.val j.val

/-- The 4×4 observation noise covariance `R = np.eye(4) * 10.0`
(source line 111). -/
def Rmat : Matrix (Fin 4) (Fin 4) ℚ :=
  Matrix.of fun i j => if i = j then 10 else 0

/-- The initial 8×8 error covariance `P = np.eye(8) * 1000.0`
(source line 114). -/
def P0mat : Matrix (Fin 8) (Fin 8) ℚ :=
  Matrix.of fun i j => if i = j then 1000 else 0

/-- Source `KalmanFilter`: state vector `x` (column of
`[cx, cy, w, h, dx, dy, dw, dh]`), error covariance `P` and the
`is_initialized` flag. The constant matrices `F H Q R` are global above. -/
structure KalmanFilter where
  x : Matrix (Fin 8) (Fin 1) ℚ
  P : Matrix (Fin 8) (Fin 8) ℚ
  isInit : Bool

/-- Source `KalmanFilter.__init__`: zero state, `P = 1000·I`, not yet seeded. -/
def KalmanFilter.new : KalmanFilter :=
  ⟨0, P0mat, false⟩

/-- Entry function for the freshly seeded state vector: position and size from
the box, zero velocities (source lines 132–141). -/
def xInitEntry (cx cy w h : ℚ) (i : ℕ) : ℚ :=
  if i = 0 then cx else if i = 1 then cy else if i = 2 then w
  else if i = 3 then h else 0

/-- Source `KalmanFilter.initialize`: set `x` from the box (center/size
parametrization, zero velocity) and flip `is_initialized`.  `P` is left
untouched. -/
def KalmanFilter.seed (kf : KalmanFilter) (b : BBox) : KalmanFilter :=
  let cx := (b.x1 + b.x2) / 2
  let cy := (b.y1 + b.y2) / 2
  let w := b.x2 - b.x1
  let h := b.y2 - b.y1
  { kf with x := Matrix.of fun i _ => xInitEntry cx cy w h i.val, isInit := true }

/-- Source `KalmanFilter.predict`: `None` when not seeded; otherwise
`x ← F·x`, `P ← F·P·Fᵀ + Q` and the bbox reconstructed from the new state is
returned together with the mutated filter. -/
def KalmanFilter.predict (kf : KalmanFilter) : Option BBox × KalmanFilter :=
  if kf.isInit = false then (none, kf)
  else
    let x' := Fmat * kf.x
    let P' := Fmat * kf.P * Fmat.transpose + Qmat
    let cx := x' 0 0
    let cy := x' 1 0
    let w := x' 2 0
    let h := x' 3 0
    (some ⟨cx - w / 2, cy - h / 2, cx + w / 2, cy + h / 2⟩, { kf with x := x', P := P' })

/-- The adjugate formula for the inverse of the 4×4 innovation covariance,
modelling `np.linalg.inv` (it agrees with `S⁻¹` whenever `S.det ≠ 0`). -/
def inv4 (S : Matrix (Fin 4) (Fin 4) ℚ) : Matrix (Fin 4) (Fin 4) ℚ :=
  S.det⁻¹ • S.adjugate

/-- Source `KalmanFilter.update`: when not seeded it seeds instead; otherwise
the standard correction `y = z − H·x`, `S = H·P·Hᵀ + R`, `K = P·Hᵀ·S⁻¹`,
`x ← x + K·y`, `P ← P − K·H·P`. -/
def KalmanFilter.update (kf : KalmanFilter) (b : BBox) : KalmanFilter :=
  if kf.isInit = false then kf.seed b
  else
    let cx := (b.x1 + b.x2) / 2
    let cy := (b.y1 + b.y2) / 2
    let w := b.x2 - b.x1
    let h := b.y2 - b.y1
    let z : Matrix (Fin 4) (Fin 1) ℚ := Matrix.of fun i _ => xInitEntry cx cy w h i.val
    let y := z - Hmat * kf.x
    let S := Hmat * kf.P * Hmat.transpose + Rmat
    let K := kf.P * Hmat.transpose * inv4 S
    { kf with x := kf.x + K * y, P := kf.P - K * Hmat * kf.P }

/-- Source `KalmanFilter.get_current_bbox`: `None` when not seeded, otherwise
the bbox reconstructed from the current state. -/
def KalmanFilter.currentBbox (kf : KalmanFilter) : Option BBox :=
  if kf.isInit = false then none
  else
    let cx := kf.x 0 0
    let cy := kf.x 1 0
    let w := kf.x 2 0
    let h := kf.x 3 0
    some ⟨cx - w / 2, cy - h / 2, cx + w / 2, cy + h / 2⟩

/-- Source `SingleObjectTracker` attributes. -/
structure SingleObjectTracker where
  target : Option Track
  maxDisappeared : ℕ
  highIouThreshold : ℚ
  lowIouThreshold : ℚ
  isTracking : Bool
  trackId : ℕ
  kalman : KalmanFilter
  highConfThreshold : ℚ
  lowConfThreshold : ℚ

/-- Source `SingleObjectTracker.__init__` with explicit arguments; the
source's defaults are `max_disappeared=30`, `high_iou_threshold=0.3`,
`low_iou_threshold=0.15`, and the ByteTrack confidence tiers are fixed at
`0.5` / `0.25`. -/
def mkTracker (maxDisappeared : ℕ) (hIou lIou : ℚ) : SingleObjectTracker :=
  ⟨none, maxDisappeared, hIou, lIou, false, 0, KalmanFilter.new, 0.5, 0.25⟩

/-- A manual annotation box, the source's `manual_box` dict. -/
structure ManualBox where
  x1 : ℚ
  y1 : ℚ
  x2 : ℚ
  y2 : ℚ
  classId : ℤ
  className : String
  deriving DecidableEq, Repr

/-- Source `SingleObjectTracker.initialize_target`: seed the track record
(confidence 1, state tracked, disappeared 0) and the Kalman filter from the
manual box, and start tracking. -/
def SingleObjectTracker.initTarget (s : SingleObjectTracker) (mb : ManualBox)
    (frameId : ℕ) : SingleObjectTracker :=
  let bbox : BBox := ⟨mb.x1, mb.y1, mb.x2, mb.y2⟩
  { s with
    target := some ⟨bbox, mb.classId, mb.className, 0, 1, frameId, TrackState.tracked⟩,
    kalman := s.kalman.seed bbox,
    isTracking := true }

/-- Source `SingleObjectTracker.reset`: drop the track, stop tracking and
replace the Kalman filter with a fresh one.  Thresholds are kept. -/
def SingleObjectTracker.reset (s : SingleObjectTracker) : SingleObjectTracker :=
  { s with target := none, isTracking := false, kalman := KalmanFilter.new }

/-- Source `SingleObjectTracker.update` (lines 316–489).  Returns the mutated
tracker and the (at most one) emitted tracking boxes.

* dead tracker (not tracking or no target): unchanged, empty list;
* otherwise the filter predicts (falling back to the last box when the filter
  is not seeded — after this fallback the predicted box is never `None`, so
  the source's line-456 `None` check always takes the first branch);
* the tiered association picks at most one detection;
* on a match: the filter is corrected with the raw detection box, the track
  stores the raw box and detection confidence with `disappeared = 0`, and the
  emitted box uses the filter's smoothed current estimate;
* on no match: `disappeared` increments; past `max_disappeared` the track is
  terminated (no output); otherwise the predicted box is emitted with
  confidence `max(0.1, confidence − 0.05·disappeared)`. -/
def SingleObjectTracker.update (s : SingleObjectTracker)
    (dets : List DetectionBox) (frameId : ℕ) :
    SingleObjectTracker × List TrackingBox :=
  if s.isTracking = false then (s, [])
  else
    match s.target with
    | none => (s, [])
    | some t =>
      let pr := s.kalman.predict
      let kf1 := pr.2
      let predicted := pr.1.getD t.box
      let m := findMatch predicted t.classId s.highIouThreshold s.lowIouThreshold
        s.highConfThreshold s.lowConfThreshold t.state t.disappeared dets
      match m.1 with
      | some d =>
        let matchedBbox := d.toBBox
        let kf2 := kf1.update matchedBbox
        let t' := { t with
          box := matchedBbox, confidence := d.confidence, disappeared := 0,
          lastFrame := frameId, state := TrackState.tracked }
        let finalBbox := kf2.currentBbox.getD matchedBbox
        ({ s with target := some t', kalman := kf2 },
         [⟨s.trackId, finalBbox.x1, finalBbox.y1, finalBbox.x2, finalBbox.y2,
           d.confidence, t.classId, t.className, frameId⟩])
      | none =>
        let d1 := t.disappeared + 1
        if s.maxDisappeared < d1 then
          ({ s with target := none, isTracking := false, kalman := kf1 }, [])
        else
          let conf := max 0.1 (t.confidence - 0.05 * (d1 : ℚ))
          ({ s with
              target := some { t with disappeared := d1, state := TrackState.lost },
              kalman := kf1 },
           [⟨s.trackId, predicted.x1, predicted.y1, predicted.x2, predicted.y2,
             conf, t.classId, t.className, frameId⟩])

/-- Feed a list of frames (detection list and frame id each) through
`SingleObjectTracker.update`, collecting the per-frame outputs. -/
def runFrames (s : SingleObjectTracker) :
    List (List DetectionBox × ℕ) → SingleObjectTracker × List (List TrackingBox)
  | [] => (s, [])
  | (dets, fid) :: rest =>
    let step := s.update dets fid
    let next := runFrames step.1 rest
    (next.1, step.2 :: next.2)

/-- One line of a YOLO label file, `(class_id, cx, cy, w, h)` with normalized
clamped geometry; the textual six-decimal rendering is presentation only. -/
def YoloLine : Type := ℤ × ℚ × ℚ × ℚ × ℚ

instance : DecidableEq YoloLine := by
  unfold YoloLine
  infer_instance

/-- Source `AnnotationGenerator.convert_to_yolo_format`: center/size
normalized by the image dimensions, each clamped into `[0, 1]`. -/
def convertToYoloFormat (tb : TrackingBox) (imageWidth imageHeight : ℚ) : YoloLine :=
  let centerX := (tb.x1 + tb.x2) / 2 / imageWidth
  let centerY := (tb.y1 + tb.y2) / 2 / imageHeight
  let w := (tb.x2 - tb.x1) / imageWidth
  let h := (tb.y2 - tb.y1) / imageHeight
  (tb.classId, max 0 (min 1 centerX), max 0 (min 1 centerY),
    max 0 (min 1 w), max 0 (min 1 h))

/-- An annotation file that would be written: name and lines. -/
def AnnFile : Type := String × List YoloLine

/-- Source `AnnotationGenerator.save_frame_annotation`: nothing is written
and `False` is returned when there are no tracking results; otherwise the
label file (one converted line per box) is produced and `True` returned. -/
def saveFrameAnn (frameName : String) (results : List TrackingBox)
    (imageWidth imageHeight : ℚ) : Bool × Option AnnFile :=
  if results.isEmpty then (false, none)
  else (true, some (frameName, results.map (convertToYoloFormat · imageWidth imageHeight)))

/-- The statistics dict of `VideoAutoAnnotator` (counters the claims touch,
plus the remaining numeric fields). -/
structure Stats where
  totalFrames : ℕ
  totalTracks : ℕ
  activeTracks : ℕ
  totalDetections : ℕ
  highConfDetections : ℕ
  lowConfDetections : ℕ
  successfulTracks : ℕ
  lostTracks : ℕ
  savedImages : ℕ
  savedAnns : ℕ
  savedLabels : ℕ
  trackingStartFrame : ℕ
  trackingEndFrame : ℕ
  targetClass : String
  confidenceSum : ℚ
  trackingSuccessRate : ℚ
  deriving DecidableEq, Repr

/-- The all-zero initial statistics (source lines 733–750). -/
def stats0 : Stats :=
  ⟨0, 0, 0, 0, 0, 0, 0, 0, 0, 0, 0, 0, 0, "", 0, 0⟩

/-- Source `VideoAutoAnnotator` state: tracker, frame counter, the
`is_initialized` flag, statistics and tracking history. -/
structure VideoAutoAnnotator where
  tracker : SingleObjectTracker
  frameCount : ℕ
  isInit : Bool
  stats : Stats
  history : List TrackingBox

/-- Source `VideoAutoAnnotator.__init__` with explicit thresholds; its own
defaults are `high_iou_threshold=0.5`, `low_iou_threshold=0.2`,
`max_disappeared=30`. -/
def mkAnnotator (hIou lIou : ℚ) (maxDisappeared : ℕ) : VideoAutoAnnotator :=
  ⟨mkTracker maxDisappeared hIou lIou, 0, false, stats0, []⟩

/-- The annotator built with the source's default thresholds. -/
def annotatorDefault : VideoAutoAnnotator :=
  mkAnnotator 0.5 0.2 30

/-- The error channel of the orchestrator; the spec's design names an
`UninitializedTrackerError` precondition violation for `process_frame`. -/
inductive TrackFailure where
  | notSeeded
  deriving DecidableEq, Repr

/-- Source `VideoAutoAnnotator.initialize_from_manual_annotation` (lines
752–808): an empty list logs a warning and returns no results without seeding;
otherwise the first box seeds the tracker (boxes after the first are discarded
with a warning), statistics are updated and the seed tracking box (confidence
1) is returned.  No geometric validity check is performed. -/
def VideoAutoAnnotator.initFromManualBoxes (a : VideoAutoAnnotator)
    (manualBoxes : List ManualBox) : VideoAutoAnnotator × List TrackingBox :=
  match manualBoxes with
  | [] => (a, [])
  | targetBox :: _ =>
    let tracker' := a.tracker.initTarget targetBox a.frameCount
    let st1 := { a.stats with
      totalTracks := 1, activeTracks := 1,
      trackingStartFrame := a.frameCount, targetClass := targetBox.className }
    let results : List TrackingBox :=
      [⟨a.tracker.trackId, targetBox.x1, targetBox.y1, targetBox.x2, targetBox.y2,
        1, targetBox.classId, targetBox.className, a.frameCount⟩]
    let st2 := { st1 with
      confidenceSum := st1.confidenceSum + 1,
      highConfDetections := st1.highConfDetections + 1 }
    ({ a with
        tracker := tracker', isInit := true, frameCount := a.frameCount + 1,
        stats := st2, history := a.history ++ results }, results)

/-- Source `VideoAutoAnnotator.process_frame` (lines 810–891).  The detection
list stands for `self.detector.detect(image)` (external collaborator; its
per-frame failures already surface as an empty list in the source).  Returns
the new state, the tracking results and the annotation file that would be
written (`none` when no file is created).  The uninitialized call logs a
warning and returns an empty result list — it does not raise, hence every
path returns `Except.ok`. -/
def VideoAutoAnnotator.processFrame (a : VideoAutoAnnotator)
    (dets : List DetectionBox) (frameName : Option String)
    (saveAnn saveImage : Bool) (imageWidth imageHeight : ℚ) :
    Except TrackFailure (VideoAutoAnnotator × List TrackingBox × Option AnnFile) :=
  if a.isInit = false then Except.ok (a, [], none)
  else
    let st1 := { a.stats with
      totalDetections := a.stats.totalDetections + dets.length,
      highConfDetections := a.stats.highConfDetections +
        (dets.filter fun (d : DetectionBox) => decide ((0.6 : ℚ) ≤ d.confidence)).length,
      lowConfDetections := a.stats.lowConfDetections +
        (dets.filter fun (d : DetectionBox) =>
          decide (¬ ((0.6 : ℚ) ≤ d.confidence)) && decide ((0.3 : ℚ) ≤ d.confidence)).length }
    let upd := a.tracker.update dets a.frameCount
    let results := upd.2
    let st2 :=
      if results.isEmpty then
        { st1 with lostTracks := st1.lostTracks + 1, activeTracks := 0 }
      else
        { st1 with
          successfulTracks := st1.successfulTracks + 1, activeTracks := 1,
          confidenceSum := st1.confidenceSum + (results.map TrackingBox.confidence).sum }
    let st3 :=
      if saveImage && frameName.isSome then { st2 with savedImages := st2.savedImages + 1 }
      else st2
    let annRes :=
      match frameName with
      | some fn => if saveAnn then saveFrameAnn fn results imageWidth imageHeight
                   else (false, none)
      | none => (false, none)
    let st4 :=
      if annRes.1 then
        { st3 with savedAnns := st3.savedAnns + 1, savedLabels := st3.savedLabels + 1 }
      else st3
    let st5 := { st4 with totalFrames := a.frameCount + 1, trackingEndFrame := a.frameCount }
    Except.ok ({ a with
      tracker := upd.1, frameCount := a.frameCount + 1,
      stats := st5, history := a.history ++ results }, results, annRes.2)

/-- Source `VideoAutoAnnotator.reset_tracker`: reset the tracker, clear the
initialization flag, the frame counter and the history. -/
def VideoAutoAnnotator.resetTracker (a : VideoAutoAnnotator) : VideoAutoAnnotator :=
  { a with tracker := a.tracker.reset, isInit := false, frameCount := 0, history := [] }

/-- The loop invariant of the running `(best_match, best_iou)` pair of the
Tier-1 scan: `best_iou` is `0` while no match is held, and otherwise equals
the IoU of the held match, which cleared the bar of its class (the plain bar
for the target class, the `1.2×` stricter bar otherwise). -/
def Tier1Inv (ref : BBox) (targetClass : ℤ) (hIou : ℚ)
    (acc : Option DetectionBox × ℚ) : Prop :=
  (acc.1 = none → acc.2 = 0) ∧
  ∀ m, acc.1 = some m → acc.2 = calculateIou ref m.toBBox ∧
    (m.classId = targetClass → hIou < acc.2) ∧
    (m.classId ≠ targetClass → hIou * 1.2 < acc.2)

/-- The block-sparse shape that the error covariance `P` keeps throughout the
filter's life: four decoupled position/velocity 2×2 blocks.  Entry pattern:
`P[i][i] = a i`, `P[i][i+4] = P[i+4][i] = b i`, `P[i+4][i+4] = c i` for
`i < 4`, all other entries zero. -/
def Pblock (a b c : Fin 4 → ℚ) : Matrix (Fin 8) (Fin 8) ℚ :=
  Matrix.of fun i j =>
    if j.val = i.val then
      (if i.val < 4 then a ⟨i.val % 4, Nat.mod_lt _ (by norm_num)⟩
       else c ⟨i.val % 4, Nat.mod_lt _ (by norm_num)⟩)
    else if j.val = i.val + 4 then b ⟨i.val % 4, Nat.mod_lt _ (by norm_num)⟩
    else if i.val = j.val + 4 then b ⟨j.val % 4, Nat.mod_lt _ (by norm_num)⟩
    else 0

/-- The covariance invariant: `P` is block-sparse with nonnegative diagonal
blocks, nonnegative position/velocity cross-covariance, and each 2×2 block
positive semidefinite (`b i ^ 2 ≤ a i * c i`). -/
def PblockInv (P : Matrix (Fin 8) (Fin 8) ℚ) : Prop :=
  ∃ a b c : Fin 4 → ℚ, P = Pblock a b c ∧
    ∀ i, 0 ≤ a i ∧ 0 ≤ b i ∧ 0 ≤ c i ∧ b i ^ 2 ≤ a i * c i

/-- The Kalman filter states reachable by the filter's own operations from a
fresh `KalmanFilter()`. -/
inductive KalmanReachable : KalmanFilter → Prop where
  | base : KalmanReachable KalmanFilter.new
  | seed (kf : KalmanFilter) (b : BBox) :
      KalmanReachable kf → KalmanReachable (kf.seed b)
  | predict (kf : KalmanFilter) : KalmanReachable kf → KalmanReachable kf.predict.2
  | update (kf : KalmanFilter) (b : BBox) :
      KalmanReachable kf → KalmanReachable (kf.update b)

/-- `n` consecutive `predict()` calls with no intervening `update()`. -/
def predictIter (kf : KalmanFilter) : ℕ → KalmanFilter
  | 0 => kf
  | n + 1 => (predictIter kf n).predict.2

/-! ### Helper lemmas -/

@[simp] theorem fv0 : ((0 : Fin 8) : ℕ) = 0 := rfl

@[simp] theorem fv1 : ((1 : Fin 8) : ℕ) = 1 := rfl

@[simp] theorem fv2 : ((2 : Fin 8) : ℕ) = 2 := rfl

@[simp] theorem fv3 : ((3 : Fin 8) : ℕ) = 3 := rfl

@[simp] theorem fv4 : ((4 : Fin 8) : ℕ) = 4 := rfl

@[simp] theorem fv5 : ((5 : Fin 8) : ℕ) = 5 := rfl

@[simp] theorem fv6 : ((6 : Fin 8) : ℕ) = 6 := rfl

@[simp] theorem fv7 : ((7 : Fin 8) : ℕ) = 7 := rfl

@[simp] theorem fw0 : ((0 : Fin 4) : ℕ) = 0 := rfl

@[simp] theorem fw1 : ((1 : Fin 4) : ℕ) = 1 := rfl

@[simp] theorem fw2 : ((2 : Fin 4) : ℕ) = 2 := rfl

@[simp] theorem fw3 : ((3 : Fin 4) : ℕ) = 3 := rfl

/-- Seeding always flips the `is_initialized` flag on. -/
theorem KalmanFilter.seed_isInit (kf : KalmanFilter) (b : BBox) :
    (kf.seed b).isInit = true := rfl

/-! ### Claim theorems -/

/-- C9: for every bbox `(x1, y1, x2, y2)`, calling `KalmanFilter.initialize`
(bbox)` and then `get_current_bbox()` immediately (before any `predict()`)
returns the same bbox unchanged (exactly, in the rational model). -/
theorem kalmanSeedRoundtrip (kf : KalmanFilter) (b : BBox) :
    (kf.seed b).currentBbox = some b := by
  obtain ⟨p1, q1, p2, q2⟩ := b
  have h : (kf.seed ⟨p1, q1, p2, q2⟩).currentBbox =
      some ⟨(p1 + p2) / 2 - (p2 - p1) / 2, (q1 + q2) / 2 - (q2 - q1) / 2,
        (p1 + p2) / 2 + (p2 - p1) / 2, (q1 + q2) / 2 + (q2 - q1) / 2⟩ := rfl
  rw [h]
  simp only [Option.some.injEq, BBox.mk.injEq]
  refine ⟨by ring, by ring, by ring, by ring⟩

/-- C2 counterexample: calling `process_frame` on a freshly constructed
(never seeded) annotator does NOT raise: it returns normally with an empty
result list, no file, and the state unchanged — refuting the claim that the
call fails fast with an error. -/
theorem processFrameUninitDoesNotRaise :
    annotatorDefault.processFrame [] none true true 640 480 =
      Except.ok (annotatorDefault, [], none) := rfl

/-- C2 (amended): for every call to `process_frame` made before
`initialize_from_manual_annotation`, the call returns normally with an empty
tracking list, creates no annotation file, and leaves the annotator state
unchanged (the source only logs a warning; it does not raise). -/
theorem processFrameUninitReturnsEmpty (a : VideoAutoAnnotator)
    (dets : List DetectionBox) (frameName : Option String) (sa si : Bool)
    (w h : ℚ) (hInit : a.isInit = false) :
    a.processFrame dets frameName sa si w h = Except.ok (a, [], none) := by
  unfold VideoAutoAnnotator.processFrame
  rw [if_pos hInit]

/-- Witness for C2's amended theorem at a concrete uninitialized state. -/
theorem processFrameUninitReturnsEmptyWitness :
    annotatorDefault.isInit = false ∧
      annotatorDefault.processFrame [⟨0, 0, 1, 1, 0.9, 0, "cup"⟩] (some "frame_000001")
          true false 10 10 = Except.ok (annotatorDefault, [], none) :=
  ⟨rfl, processFrameUninitReturnsEmpty _ _ _ _ _ _ _ rfl⟩

/-- A seed box with zero width (geometrically invalid). -/
def badSeedBox : ManualBox := ⟨5, 5, 5, 9, 0, "cup"⟩

/-- A geometrically valid seed box. -/
def goodSeedBox : ManualBox := ⟨0, 0, 10, 10, 0, "cup"⟩

/-- C6 counterexample: seeding with `[badSeedBox, goodSeedBox]`, where the
first box has zero width and the second is valid, seeds the tracker from the
INVALID first box (and initializes successfully rather than skipping to the
first valid box) — refuting "seeded from the first geometrically valid box". -/
theorem initFromManualBoxesInvalidFirstCounterexample :
    (annotatorDefault.initFromManualBoxes [badSeedBox, goodSeedBox]).1.tracker.target =
        some ⟨⟨5, 5, 5, 9⟩, 0, "cup", 0, 1, 0, TrackState.tracked⟩ ∧
      badSeedBox.x2 - badSeedBox.x1 = 0 ∧
      0 < goodSeedBox.x2 - goodSeedBox.x1 ∧ 0 < goodSeedBox.y2 - goodSeedBox.y1 ∧
      (annotatorDefault.initFromManualBoxes [badSeedBox, goodSeedBox]).1.isInit = true := by
  refine ⟨rfl, by norm_num [badSeedBox], by norm_num [goodSeedBox],
    by norm_num [goodSeedBox], rfl⟩

/-- C6 (amended): `initialize_from_manual_annotation` seeds the tracker from
the first box of the list whether or not it is geometrically valid; boxes
after the first are discarded (with a warning); an empty list performs no
seeding and returns an empty list rather than raising. -/
theorem initFromManualBoxesUsesFirstBox (a : VideoAutoAnnotator)
    (boxes : List ManualBox) :
    (boxes = [] → a.initFromManualBoxes boxes = (a, [])) ∧
      ∀ b bs, boxes = b :: bs →
        (a.initFromManualBoxes boxes).1.isInit = true ∧
          (a.initFromManualBoxes boxes).1.tracker.target =
            some ⟨⟨b.x1, b.y1, b.x2, b.y2⟩, b.classId, b.className, 0, 1, a.frameCount,
              TrackState.tracked⟩ ∧
          (a.initFromManualBoxes boxes).2 =
            [⟨a.tracker.trackId, b.x1, b.y1, b.x2, b.y2, 1, b.classId, b.className,
              a.frameCount⟩] := by
  constructor
  · rintro rfl
    rfl
  · rintro b bs rfl
    exact ⟨rfl, rfl, rfl⟩

/-- Witness for C6's amended theorem at a concrete single-box list. -/
theorem initFromManualBoxesUsesFirstBoxWitness :
    (annotatorDefault.initFromManualBoxes [goodSeedBox]).1.isInit = true ∧
      (annotatorDefault.initFromManualBoxes [goodSeedBox]).1.tracker.target =
        some ⟨⟨0, 0, 10, 10⟩, 0, "cup", 0, 1, 0, TrackState.tracked⟩ := by
  have h := (initFromManualBoxesUsesFirstBox annotatorDefault [goodSeedBox]).2
    goodSeedBox [] rfl
  exact ⟨h.1, by simpa [goodSeedBox, annotatorDefault, mkAnnotator] using h.2.1⟩

/-- C7: for every frame, (i) an empty `process_frame` result list produces no
annotation file even when saving was requested, (ii) a file is produced
exactly when saving was requested, a frame name was given and the result list
is non-empty (i.e. exactly when `save_frame_annotation` succeeds), and
(iii) the `saved_annotations` success counter is incremented exactly when the
file was actually produced. -/
theorem processFrameNoEmptyAnnFiles (a : VideoAutoAnnotator)
    (dets : List DetectionBox) (frameName : Option String) (sa si : Bool)
    (w h : ℚ) (a' : VideoAutoAnnotator) (res : List TrackingBox)
    (file : Option AnnFile)
    (hrun : a.processFrame dets frameName sa si w h = Except.ok (a', res, file)) :
    (res = [] → file = none) ∧
      file.isSome = (sa && frameName.isSome && !res.isEmpty) ∧
      a'.stats.savedAnns = a.stats.savedAnns + (if file.isSome then 1 else 0) := by
  unfold VideoAutoAnnotator.processFrame at hrun
  by_cases hInit : a.isInit = false
  · rw [if_pos hInit] at hrun
    simp only [Except.ok.injEq, Prod.mk.injEq] at hrun
    obtain ⟨ha', hres, hfile⟩ := hrun
    subst ha' hres hfile
    simp
  · rw [if_neg hInit] at hrun
    simp only [Except.ok.injEq, Prod.mk.injEq] at hrun
    obtain ⟨ha', hres, hfile⟩ := hrun
    subst ha' hres hfile
    cases frameName <;> cases sa <;> cases si <;>
      by_cases hemp : (a.tracker.update dets a.frameCount).2 = [] <;>
        simp [saveFrameAnn, hemp, List.isEmpty_iff]

/-- Witness for C7 at a concrete frame whose result list is empty. -/
theorem processFrameNoEmptyAnnFilesWitness :
    (([] : List TrackingBox) = [] → (none : Option AnnFile) = none) ∧
      (none : Option AnnFile).isSome =
        (true && (some "frame_7").isSome && !([] : List TrackingBox).isEmpty) ∧
      annotatorDefault.stats.savedAnns =
        annotatorDefault.stats.savedAnns + (if (none : Option AnnFile).isSome then 1 else 0) :=
  processFrameNoEmptyAnnFiles annotatorDefault [] (some "frame_7") true false 10 10
    annotatorDefault [] none rfl

/-- Prediction does not change the seeded flag. -/
theorem KalmanFilter.predict_isInit (kf : KalmanFilter) :
    kf.predict.2.isInit = kf.isInit := by
  unfold KalmanFilter.predict
  split <;> rfl

/-- Correction always leaves the filter seeded. -/
theorem KalmanFilter.update_isInit (kf : KalmanFilter) (b : BBox) :
    (kf.update b).isInit = true := by
  unfold KalmanFilter.update KalmanFilter.seed
  split
  · rfl
  · next h =>
    have h' : kf.isInit = true := by
      cases hb : kf.isInit
      · exact absurd hb h
      · rfl
    exact h'

/-- A successful prediction implies the filter was seeded. -/
theorem KalmanFilter.isInit_of_predict_some (kf : KalmanFilter) (pb : BBox)
    (h : kf.predict.1 = some pb) : kf.isInit = true := by
  by_contra h'
  rw [Bool.not_eq_true] at h'
  unfold KalmanFilter.predict at h
  rw [if_pos h'] at h
  exact Option.noConfusion h

/-- A seeded filter always reports a current bbox. -/
theorem KalmanFilter.currentBbox_of_isInit (kf : KalmanFilter)
    (h : kf.isInit = true) : ∃ cb, kf.currentBbox = some cb := by
  unfold KalmanFilter.currentBbox
  rw [if_neg (by simp [h])]
  exact ⟨_, rfl⟩

/-- A dead tracker (not tracking) is left unchanged by `update` and emits
nothing (source line 335). -/
theorem SingleObjectTracker.update_dead (s : SingleObjectTracker)
    (h : s.isTracking = false) (dets : List DetectionBox) (frameId : ℕ) :
    s.update dets frameId = (s, []) := by
  unfold SingleObjectTracker.update
  rw [if_pos h]

/-- A dead tracker stays dead and emits nothing over any frame sequence. -/
theorem runFrames_dead (s : SingleObjectTracker) (h : s.isTracking = false)
    (frames : List (List DetectionBox × ℕ)) :
    runFrames s frames = (s, frames.map fun _ => []) := by
  induction frames with
  | nil => rfl
  | cons f rest ih =>
    obtain ⟨dets, fid⟩ := f
    unfold runFrames
    rw [SingleObjectTracker.update_dead s h dets fid]
    simp [ih]

/-- A state vector with zero velocity components is a fixed point of the
transition matrix `F`. -/
theorem Fmat_fix_seed (c1 c2 c3 c4 : ℚ) (k : Fin 8) :
    (Fmat * (Matrix.of fun (i : Fin 8) (_ : Fin 1) => xInitEntry c1 c2 c3 c4 i.val)) k 0 =
      xInitEntry c1 c2 c3 c4 k.val := by
  rw [Matrix.mul_apply, Fin.sum_univ_eight]
  fin_cases k <;> norm_num [Fmat, fEntry, xInitEntry, Matrix.of_apply]

/-- Predicting right after seeding returns the seeded box itself (the seeded
velocities are zero). -/
theorem KalmanFilter.predict_seed_bbox (kf : KalmanFilter) (b : BBox) :
    ((kf.seed b).predict).1 = some b := by
  obtain ⟨p1, q1, p2, q2⟩ := b
  have hx : (kf.seed ⟨p1, q1, p2, q2⟩).x = Matrix.of (fun (i : Fin 8) (_ : Fin 1) =>
      xInitEntry ((p1 + p2) / 2) ((q1 + q2) / 2) (p2 - p1) (q2 - q1) i.val) := rfl
  unfold KalmanFilter.predict
  rw [if_neg (by rw [KalmanFilter.seed_isInit]; simp)]
  simp only [hx, Fmat_fix_seed, Option.some.injEq]
  norm_num [xInitEntry]
  exact ⟨by ring, by ring, by ring, by ring⟩

/-- C4: on a frame where the tracker is alive, the filter has predicted `pb`,
no detection is matched and the track survives (`disappeared + 1` still within
`max_disappeared`), the disappeared counter increments by exactly 1 and
exactly one TrackingBox is emitted, built from the Kalman-predicted bbox with
confidence `max(0.1, last-matched-confidence − 0.05 · (post-increment
disappeared))`. -/
theorem trackerOcclusionDecay (s : SingleObjectTracker) (t : Track)
    (dets : List DetectionBox) (frameId : ℕ) (pb : BBox)
    (hTr : s.isTracking = true) (hT : s.target = some t)
    (hpb : s.kalman.predict.1 = some pb)
    (hNoMatch : (findMatch pb t.classId s.highIouThreshold s.lowIouThreshold
      s.highConfThreshold s.lowConfThreshold t.state t.disappeared dets).1 = none)
    (hAlive : t.disappeared + 1 ≤ s.maxDisappeared) :
    s.update dets frameId =
      ({ s with
          target := some { t with disappeared := t.disappeared + 1, state := TrackState.lost },
          kalman := s.kalman.predict.2 },
       [⟨s.trackId, pb.x1, pb.y1, pb.x2, pb.y2,
         max 0.1 (t.confidence - 0.05 * ((t.disappeared + 1 : ℕ) : ℚ)),
         t.classId, t.className, frameId⟩]) := by
  unfold SingleObjectTracker.update
  rw [if_neg (by simp [hTr]), hT]
  simp only [hpb, Option.getD_some, hNoMatch, if_neg (Nat.not_lt.mpr hAlive)]

/-- The live tracker state used by the concrete witnesses: seeded on a
10×10 "cup" box at frame 0. -/
def trackerLive : SingleObjectTracker :=
  (mkTracker 30 0.5 0.2).initTarget ⟨0, 0, 10, 10, 0, "cup"⟩ 0

/-- The track record held by `trackerLive`. -/
def trackCup : Track := ⟨⟨0, 0, 10, 10⟩, 0, "cup", 0, 1, 0, TrackState.tracked⟩

/-- A high-confidence same-class detection at the tracked position. -/
def detCup : DetectionBox := ⟨0, 0, 10, 10, 0.9, 0, "cup"⟩

/-- A tracker that has already been lost for 30 consecutive frames. -/
def trackerStale : SingleObjectTracker :=
  { mkTracker 30 0.5 0.2 with
    target := some ⟨⟨0, 0, 10, 10⟩, 0, "cup", 30, 0.9, 5, TrackState.lost⟩,
    isTracking := true,
    kalman := KalmanFilter.new.seed ⟨0, 0, 10, 10⟩ }

/-- Witness for C4 at a concrete live tracker and an empty detection list. -/
theorem trackerOcclusionDecayWitness :
    trackerLive.isTracking = true ∧
      (trackerLive.update [] 1).2 =
        [⟨0, 0, 0, 10, 10, max 0.1 (1 - 0.05 * ((0 + 1 : ℕ) : ℚ)), 0, "cup", 1⟩] := by
  have h := trackerOcclusionDecay trackerLive trackCup [] 1 ⟨0, 0, 10, 10⟩
    rfl rfl (KalmanFilter.predict_seed_bbox _ _) rfl (by decide)
  exact ⟨rfl, by rw [h]; rfl⟩

/-- C10: on a frame where a detection `d` is matched (any tier), the emitted
TrackingBox's coordinates are the Kalman filter's post-correction smoothed
estimate (`get_current_bbox`), its confidence is the matched detection's
confidence, and the Track's stored box is the raw detection bbox. -/
theorem trackerMatchedEmitsSmoothed (s : SingleObjectTracker) (t : Track)
    (dets : List DetectionBox) (frameId : ℕ) (pb : BBox) (d : DetectionBox)
    (hTr : s.isTracking = true) (hT : s.target = some t)
    (hpb : s.kalman.predict.1 = some pb)
    (hMatch : (findMatch pb t.classId s.highIouThreshold s.lowIouThreshold
      s.highConfThreshold s.lowConfThreshold t.state t.disappeared dets).1 = some d) :
    ∃ cb : BBox, (s.kalman.predict.2.update d.toBBox).currentBbox = some cb ∧
      s.update dets frameId =
        ({ s with
            target := some { t with box := d.toBBox, confidence := d.confidence, disappeared := 0, lastFrame := frameId, state := TrackState.tracked },
            kalman := s.kalman.predict.2.update d.toBBox },
         [⟨s.trackId, cb.x1, cb.y1, cb.x2, cb.y2, d.confidence, t.classId, t.className,
           frameId⟩]) := by
  have hInit2 : (s.kalman.predict.2.update d.toBBox).isInit = true :=
    KalmanFilter.update_isInit _ _
  obtain ⟨cb, hcb⟩ := KalmanFilter.currentBbox_of_isInit _ hInit2
  refine ⟨cb, hcb, ?_⟩
  unfold SingleObjectTracker.update
  rw [if_neg (by simp [hTr]), hT]
  simp only [hpb, Option.getD_some, hMatch, hcb]

/-- The tiered matcher accepts `detCup` for `trackerLive`'s configuration. -/
theorem findMatch_detCup :
    (findMatch ⟨0, 0, 10, 10⟩ 0 0.5 0.2 0.5 0.25 TrackState.tracked 0 [detCup]).1 =
      some detCup := by
  have hfil : ([detCup].filter fun d => decide ((0.5 : ℚ) ≤ d.confidence)) = [detCup] := by
    norm_num [List.filter, detCup]
  have hfil2 : ([detCup].filter fun d =>
      decide ((0.25 : ℚ) ≤ d.confidence) && decide (d.confidence < (0.5 : ℚ))) = [] := by
    norm_num [List.filter, detCup]
  have hiou : calculateIou ⟨0, 0, 10, 10⟩ detCup.toBBox = 1 := by
    norm_num [calculateIou, DetectionBox.toBBox, detCup]
  have hscan : tier1Scan ⟨0, 0, 10, 10⟩ 0 0.5 [detCup] (none, 0) = (some detCup, 1) := by
    simp only [tier1Scan, List.foldl, tier1Step, hiou]
    norm_num [detCup]
  simp only [findMatch, hfil, hfil2, hscan]
  simp

/-- Witness for C10 at the concrete live tracker and matching detection. -/
theorem trackerMatchedEmitsSmoothedWitness :
    trackerLive.isTracking = true ∧
      (trackerLive.update [detCup] 1).1.target =
        some ⟨⟨0, 0, 10, 10⟩, 0, "cup", 0, 0.9, 1, TrackState.tracked⟩ := by
  obtain ⟨cb, hcb, hupd⟩ := trackerMatchedEmitsSmoothed trackerLive trackCup [detCup] 1
    ⟨0, 0, 10, 10⟩ detCup rfl rfl (KalmanFilter.predict_seed_bbox _ _) findMatch_detCup
  exact ⟨rfl, by rw [hupd]; rfl⟩

/-- C3: on a frame where the tracker is alive but unmatched and the
incremented disappeared counter exceeds `max_disappeared`, the tracker emits
nothing, `is_tracking` becomes false and the target is dropped; from then on
every further `update` call leaves the tracker unchanged and returns an empty
list, until `reset` followed by a fresh `initialize_target` makes
`is_tracking` true again. -/
theorem trackerTerminationPersists (s : SingleObjectTracker) (t : Track)
    (dets : List DetectionBox) (frameId : ℕ)
    (hTr : s.isTracking = true) (hT : s.target = some t)
    (hNoMatch : (findMatch (s.kalman.predict.1.getD t.box) t.classId s.highIouThreshold
      s.lowIouThreshold s.highConfThreshold s.lowConfThreshold t.state t.disappeared
      dets).1 = none)
    (hOver : s.maxDisappeared < t.disappeared + 1) :
    (s.update dets frameId).2 = [] ∧
      (s.update dets frameId).1.isTracking = false ∧
      (s.update dets frameId).1.target = none ∧
      (∀ frames, runFrames (s.update dets frameId).1 frames =
        ((s.update dets frameId).1, frames.map fun _ => [])) ∧
      ∀ mb fid2, ((s.update dets frameId).1.reset.initTarget mb fid2).isTracking = true := by
  have hu : s.update dets frameId =
      ({ s with target := none, isTracking := false, kalman := s.kalman.predict.2 }, []) := by
    unfold SingleObjectTracker.update
    rw [if_neg (by simp [hTr]), hT]
    simp only [hNoMatch, if_pos hOver]
  rw [hu]
  exact ⟨rfl, rfl, rfl, fun frames => runFrames_dead _ rfl frames, fun mb fid2 => rfl⟩

/-- Witness for C3 at a concrete tracker whose target has been lost for 30
frames, over a concrete two-frame continuation. -/
theorem trackerTerminationPersistsWitness :
    (trackerStale.update [] 6).2 = [] ∧
      (trackerStale.update [] 6).1.isTracking = false ∧
      runFrames (trackerStale.update [] 6).1 [([], 7), ([], 8)] =
        ((trackerStale.update [] 6).1, [[], []]) ∧
      ((trackerStale.update [] 6).1.reset.initTarget ⟨0, 0, 10, 10, 0, "cup"⟩ 9).isTracking
        = true := by
  have h := trackerTerminationPersists trackerStale
    ⟨⟨0, 0, 10, 10⟩, 0, "cup", 30, 0.9, 5, TrackState.lost⟩ [] 6 rfl rfl rfl (by decide)
  exact ⟨h.1, h.2.1, by rw [h.2.2.2.1 [([], 7), ([], 8)]]; rfl, h.2.2.2.2 _ 9⟩

/-- Case analysis of one Tier-1 step: the invariant is preserved, `best_iou`
never decreases, the accumulator either survives unchanged or is replaced by
the current detection at a strictly larger IoU, and a same-class detection
clearing the bar never ends below the running best. -/
theorem tier1Step_cases (ref : BBox) (tc : ℤ) (hthr : ℚ) (h0 : 0 ≤ hthr)
    (acc : Option DetectionBox × ℚ) (d : DetectionBox)
    (hInv : Tier1Inv ref tc hthr acc) :
    Tier1Inv ref tc hthr (tier1Step ref tc hthr acc d) ∧
      acc.2 ≤ (tier1Step ref tc hthr acc d).2 ∧
      (tier1Step ref tc hthr acc d = acc ∨
        (tier1Step ref tc hthr acc d = (some d, calculateIou ref d.toBBox) ∧
          acc.2 < calculateIou ref d.toBBox)) ∧
      (d.classId = tc → hthr < calculateIou ref d.toBBox →
        calculateIou ref d.toBBox ≤ (tier1Step ref tc hthr acc d).2) := by
  simp only [tier1Step]
  by_cases hcls : d.classId = tc
  · rw [if_pos hcls]
    by_cases hacc : acc.2 < calculateIou ref d.toBBox ∧ hthr < calculateIou ref d.toBBox
    · rw [if_pos hacc]
      refine ⟨⟨fun h => by simp at h, fun m hm => ?_⟩, le_of_lt hacc.1,
        Or.inr ⟨rfl, hacc.1⟩, fun _ _ => le_refl _⟩
      obtain rfl : d = m := by simpa using hm
      exact ⟨rfl, fun _ => hacc.2, fun h => absurd hcls h⟩
    · rw [if_neg hacc]
      refine ⟨hInv, le_refl _, Or.inl rfl, fun _ hi => ?_⟩
      rcases not_and_or.mp hacc with h | h
      · exact le_of_not_lt h
      · exact absurd hi h
  · rw [if_neg hcls]
    by_cases hacc : acc.1 = none ∧ hthr * 1.2 < calculateIou ref d.toBBox
    · rw [if_pos hacc]
      have hz : acc.2 = 0 := hInv.1 hacc.1
      have hpos : (0 : ℚ) < calculateIou ref d.toBBox :=
        lt_of_le_of_lt (mul_nonneg h0 (by norm_num)) hacc.2
      refine ⟨⟨fun h => by simp at h, fun m hm => ?_⟩, by rw [hz]; exact le_of_lt hpos,
        Or.inr ⟨rfl, by rw [hz]; exact hpos⟩, fun hs => absurd hs hcls⟩
      obtain rfl : d = m := by simpa using hm
      exact ⟨rfl, fun h => absurd h hcls, fun _ => hacc.2⟩
    · rw [if_neg hacc]
      exact ⟨hInv, le_refl _, Or.inl rfl, fun hs => absurd hs hcls⟩

/-- Main Tier-1 scan invariant: the invariant is preserved, `best_iou` only
grows, every same-class detection of the list clearing the bar is bounded by
the final `best_iou`, and the final accumulator is either untouched or holds
a member of the list. -/
theorem tier1Scan_spec (ref : BBox) (tc : ℤ) (hthr : ℚ) (h0 : 0 ≤ hthr)
    (dets : List DetectionBox) :
    ∀ acc : Option DetectionBox × ℚ, Tier1Inv ref tc hthr acc →
      Tier1Inv ref tc hthr (tier1Scan ref tc hthr dets acc) ∧
        acc.2 ≤ (tier1Scan ref tc hthr dets acc).2 ∧
        (∀ d ∈ dets, d.classId = tc → hthr < calculateIou ref d.toBBox →
          calculateIou ref d.toBBox ≤ (tier1Scan ref tc hthr dets acc).2) ∧
        (tier1Scan ref tc hthr dets acc = acc ∨
          ∃ m ∈ dets, (tier1Scan ref tc hthr dets acc).1 = some m) := by
  induction dets with
  | nil => exact fun acc hInv => ⟨hInv, le_refl _, by simp, Or.inl rfl⟩
  | cons d rest ih =>
    intro acc hInv
    have hstep := tier1Step_cases ref tc hthr h0 acc d hInv
    have hscan : tier1Scan ref tc hthr (d :: rest) acc =
        tier1Scan ref tc hthr rest (tier1Step ref tc hthr acc d) := rfl
    have hrest := ih (tier1Step ref tc hthr acc d) hstep.1
    rw [hscan]
    refine ⟨hrest.1, le_trans hstep.2.1 hrest.2.1, ?_, ?_⟩
    · intro e he hecls heiou
      rcases List.mem_cons.mp he with rfl | hmem
      · exact le_trans (hstep.2.2.2 hecls heiou) hrest.2.1
      · exact hrest.2.2.1 e hmem hecls heiou
    · rcases hrest.2.2.2 with heq | ⟨m, hmem, hsome⟩
      · rw [heq]
        rcases hstep.2.2.1 with heq2 | ⟨heq2, _⟩
        · exact Or.inl heq2
        · exact Or.inr ⟨d, List.mem_cons_self _ _, by rw [heq2]⟩
      · exact Or.inr ⟨m, List.mem_cons_of_mem _ hmem, hsome⟩

/-- Positional Tier-1 lemma: when the scan of `dets` ends holding a
same-class detection `m` that did not come in through the accumulator, the
list splits around an occurrence of `m` such that every earlier same-class
detection clearing the bar has IoU strictly below the final `best_iou`
(stable tie-break: equal-IoU candidates keep the earlier one). -/
theorem tier1Scan_same_first_max (ref : BBox) (tc : ℤ) (hthr : ℚ) (h0 : 0 ≤ hthr)
    (dets : List DetectionBox) :
    ∀ acc : Option DetectionBox × ℚ, Tier1Inv ref tc hthr acc →
      ∀ m, (tier1Scan ref tc hthr dets acc).1 = some m → m.classId = tc →
      (acc.1 = some m ∧ acc.2 = (tier1Scan ref tc hthr dets acc).2) ∨
      (∃ l₁ l₂, dets = l₁ ++ m :: l₂ ∧ acc.2 < (tier1Scan ref tc hthr dets acc).2 ∧
        ∀ d ∈ l₁, d.classId = tc → hthr < calculateIou ref d.toBBox →
          calculateIou ref d.toBBox < (tier1Scan ref tc hthr dets acc).2) := by
  induction dets with
  | nil => exact fun acc _ m hm _ => Or.inl ⟨hm, rfl⟩
  | cons d rest ih =>
    intro acc hInv m hm hmcls
    have hstep := tier1Step_cases ref tc hthr h0 acc d hInv
    have hscan : tier1Scan ref tc hthr (d :: rest) acc =
        tier1Scan ref tc hthr rest (tier1Step ref tc hthr acc d) := rfl
    rw [hscan] at hm ⊢
    rcases ih (tier1Step ref tc hthr acc d) hstep.1 m hm hmcls with
      ⟨hsome, hval⟩ | ⟨l₁, l₂, hsplit, hlt, hl₁⟩
    · rcases hstep.2.2.1 with heq2 | ⟨heq2, hless⟩
      · refine Or.inl ⟨?_, (congrArg Prod.snd heq2).symm.trans hval⟩
        rw [← heq2]
        exact hsome
      · obtain rfl : d = m := by rw [heq2] at hsome; simpa using hsome
        refine Or.inr ⟨[], rest, rfl, ?_, by simp⟩
        rw [← hval, heq2]
        exact hless
    · refine Or.inr ⟨d :: l₁, l₂, by rw [hsplit]; rfl, lt_of_le_of_lt hstep.2.1 hlt, ?_⟩
      intro e he hecls heiou
      rcases List.mem_cons.mp he with rfl | hmem
      · exact lt_of_le_of_lt (hstep.2.2.2 hecls heiou) hlt
      · exact hl₁ e hmem hecls heiou

/-- The reference (predicted) box used in the Tier-1 counterexample. -/
def tierRef : BBox := ⟨0, 0, 10, 10⟩

/-- A wrong-class high-confidence detection with IoU `1/2` against `tierRef`,
first in detector order. -/
def tierDiffNear : DetectionBox := ⟨0, 0, 10, 5, 0.9, 2, "dog"⟩

/-- A wrong-class high-confidence detection with IoU `9/10`, second in
detector order. -/
def tierDiffFar : DetectionBox := ⟨0, 0, 10, 9, 0.9, 2, "dog"⟩

/-- A same-class high-confidence detection with IoU `2/5`, clearing the
`0.3` bar, last in detector order. -/
def tierSameOk : DetectionBox := ⟨0, 0, 10, 4, 0.9, 1, "cat"⟩

/-- C1 counterexample: with `high_iou_threshold = 0.3`, scanning
`[tierDiffNear, tierDiffFar, tierSameOk]` accepts the FIRST different-class
detection even though (i) the same-class detection `tierSameOk` clears the
plain bar and (ii) another candidate (`tierDiffFar`) has strictly larger IoU.
This refutes both halves of the claim: a different-class detection can be
accepted while a same-class one clears the bar, and the accepted candidate is
not the maximum-IoU one of the tier. -/
theorem tier1ScanOrderCounterexample :
    (tier1Scan tierRef 1 0.3 [tierDiffNear, tierDiffFar, tierSameOk] (none, 0)).1 =
        some tierDiffNear ∧
      tierDiffNear.classId ≠ 1 ∧ tierSameOk.classId = 1 ∧
      (0.3 : ℚ) < calculateIou tierRef tierSameOk.toBBox ∧
      calculateIou tierRef tierDiffNear.toBBox < calculateIou tierRef tierDiffFar.toBBox := by
  have hiA : calculateIou tierRef tierDiffNear.toBBox = 1 / 2 := by
    norm_num [calculateIou, tierRef, tierDiffNear, DetectionBox.toBBox]
  have hiB : calculateIou tierRef tierDiffFar.toBBox = 9 / 10 := by
    norm_num [calculateIou, tierRef, tierDiffFar, DetectionBox.toBBox]
  have hiC : calculateIou tierRef tierSameOk.toBBox = 2 / 5 := by
    norm_num [calculateIou, tierRef, tierSameOk, DetectionBox.toBBox]
  refine ⟨?_, by decide, rfl, by rw [hiC]; norm_num, by rw [hiA, hiB]; norm_num⟩
  have h1 : tier1Step tierRef 1 0.3 (none, 0) tierDiffNear = (some tierDiffNear, 1 / 2) := by
    simp only [tier1Step, hiA]
    rw [if_neg (by decide), if_pos (by norm_num)]
  have h2 : tier1Step tierRef 1 0.3 (some tierDiffNear, 1 / 2) tierDiffFar =
      (some tierDiffNear, 1 / 2) := by
    simp only [tier1Step, hiB]
    rw [if_neg (by decide), if_neg (by simp)]
  have h3 : tier1Step tierRef 1 0.3 (some tierDiffNear, 1 / 2) tierSameOk =
      (some tierDiffNear, 1 / 2) := by
    simp only [tier1Step, hiC]
    rw [if_pos (by decide), if_neg (by norm_num)]
  show (tier1Scan tierRef 1 0.3 [tierDiffNear, tierDiffFar, tierSameOk] (none, 0)).1 = _
  simp only [tier1Scan, List.foldl, h1, h2, h3]

/-- C1 (amended): characterization of the Tier-1 accepted candidate.  The
accepted candidate is a member of the scanned list and the final `best_iou`
is its IoU; every same-class detection clearing the `high_iou_threshold` bar
has IoU at most the accepted candidate's; a different-class candidate is
accepted only with IoU above `1.2 × high_iou_threshold` (so only when no
same-class detection clears the bar with strictly greater IoU); and a
same-class accepted candidate clears the bar and is the earliest
maximum-IoU same-class candidate: every same-class detection before it that
clears the bar has strictly smaller IoU (stable equal-IoU tie-break). -/
theorem tier1AcceptedCharacterization (ref : BBox) (tc : ℤ) (hthr : ℚ)
    (dets : List DetectionBox) (m : DetectionBox) (h0 : 0 ≤ hthr)
    (hm : (tier1Scan ref tc hthr dets (none, 0)).1 = some m) :
    m ∈ dets ∧
      (tier1Scan ref tc hthr dets (none, 0)).2 = calculateIou ref m.toBBox ∧
      (∀ d ∈ dets, d.classId = tc → hthr < calculateIou ref d.toBBox →
        calculateIou ref d.toBBox ≤ calculateIou ref m.toBBox) ∧
      (m.classId ≠ tc → hthr * 1.2 < calculateIou ref m.toBBox) ∧
      (m.classId = tc → hthr < calculateIou ref m.toBBox ∧
        ∃ l₁ l₂, dets = l₁ ++ m :: l₂ ∧
          ∀ d ∈ l₁, d.classId = tc → hthr < calculateIou ref d.toBBox →
            calculateIou ref d.toBBox < calculateIou ref m.toBBox) := by
  have hInv0 : Tier1Inv ref tc hthr (none, 0) :=
    ⟨fun _ => rfl, fun m' hm' => by simp at hm'⟩
  have hspec := tier1Scan_spec ref tc hthr h0 dets (none, 0) hInv0
  have hfin := hspec.1.2 m hm
  have hmem : m ∈ dets := by
    rcases hspec.2.2.2 with heq | ⟨m', hmem', hsome'⟩
    · rw [heq] at hm
      simp at hm
    · rw [hsome'] at hm
      obtain rfl : m' = m := by simpa using hm
      exact hmem'
  refine ⟨hmem, hfin.1, ?_, ?_, ?_⟩
  · intro d hd hdcls hdiou
    have := hspec.2.2.1 d hd hdcls hdiou
    rwa [hfin.1] at this
  · intro hne
    have := hfin.2.2 hne
    rwa [hfin.1] at this
  · intro hsame
    have hbar := hfin.2.1 hsame
    rw [hfin.1] at hbar
    refine ⟨hbar, ?_⟩
    rcases tier1Scan_same_first_max ref tc hthr h0 dets (none, 0) hInv0 m hm hsame with
      ⟨habs, _⟩ | ⟨l₁, l₂, hsplit, _, hl₁⟩
    · simp at habs
    · exact ⟨l₁, l₂, hsplit, fun d hd hdcls hdiou => by
        have := hl₁ d hd hdcls hdiou
        rwa [hfin.1] at this⟩

/-- Witness for C1's amended theorem at a concrete one-element list. -/
theorem tier1AcceptedCharacterizationWitness :
    tierSameOk ∈ [tierSameOk] ∧
      (tier1Scan tierRef 1 0.3 [tierSameOk] (none, 0)).2 =
        calculateIou tierRef tierSameOk.toBBox := by
  have hiC : calculateIou tierRef tierSameOk.toBBox = 2 / 5 := by
    norm_num [calculateIou, tierRef, tierSameOk, DetectionBox.toBBox]
  have hstep : tier1Step tierRef 1 0.3 (none, 0) tierSameOk = (some tierSameOk, 2 / 5) := by
    simp only [tier1Step, hiC]
    rw [if_pos (by decide), if_pos (by norm_num)]
  have h := tier1AcceptedCharacterization tierRef 1 0.3 [tierSameOk] tierSameOk
    (by norm_num) (by simp only [tier1Scan, List.foldl, hstep])
  exact ⟨h.1, h.2.1⟩

/-- C5: for every detection list containing a high-confidence same-class
detection whose IoU with the predicted box exceeds `high_iou_threshold` and a
low-confidence same-class detection with numerically higher IoU, the
Associator selects a high-confidence detection (Tier 1), and the low-
confidence Tier 2 is entered only when Tier 1 produces no match: the overall
verdict IS the Tier-1 verdict. -/
theorem tierPrecedenceHighBeatsLow (ref : BBox) (tc : ℤ) (hIou lIou hConf lConf : ℚ)
    (st : TrackState) (dis : ℕ) (dets : List DetectionBox)
    (h0 : 0 ≤ hIou) (dH : DetectionBox) (hHmem : dH ∈ dets)
    (hHconf : hConf ≤ dH.confidence) (hHcls : dH.classId = tc)
    (hHiou : hIou < calculateIou ref dH.toBBox)
    (dL : DetectionBox) (_hLmem : dL ∈ dets) (_hLconf : lConf ≤ dL.confidence)
    (_hLconf2 : dL.confidence < hConf) (_hLcls : dL.classId = tc)
    (_hLiou : calculateIou ref dH.toBBox < calculateIou ref dL.toBBox) :
    ∃ m, (findMatch ref tc hIou lIou hConf lConf st dis dets).1 = some m ∧
      hConf ≤ m.confidence ∧
      findMatch ref tc hIou lIou hConf lConf st dis dets =
        tier1Scan ref tc hIou (dets.filter fun d => decide (hConf ≤ d.confidence))
          (none, 0) := by
  have hInv0 : Tier1Inv ref tc hIou (none, 0) :=
    ⟨fun _ => rfl, fun m' hm' => by simp at hm'⟩
  have hHmemF : dH ∈ dets.filter fun d => decide (hConf ≤ d.confidence) :=
    List.mem_filter.mpr ⟨hHmem, decide_eq_true hHconf⟩
  have hspec := tier1Scan_spec ref tc hIou h0
    (dets.filter fun d => decide (hConf ≤ d.confidence)) (none, 0) hInv0
  have hne : (tier1Scan ref tc hIou
      (dets.filter fun d => decide (hConf ≤ d.confidence)) (none, 0)).1 ≠ none := by
    intro habs
    have hz := hspec.1.1 habs
    have hbound := hspec.2.2.1 dH hHmemF hHcls hHiou
    rw [hz] at hbound
    exact absurd hbound (not_le.mpr (lt_of_le_of_lt h0 hHiou))
  obtain ⟨m, hm⟩ := Option.ne_none_iff_exists'.mp hne
  have hconf : hConf ≤ m.confidence := by
    rcases hspec.2.2.2 with heq | ⟨m', hmem', hsome'⟩
    · rw [heq] at hm
      simp at hm
    · rw [hsome'] at hm
      obtain rfl : m' = m := by simpa using hm
      exact of_decide_eq_true (List.mem_filter.mp hmem').2
  have heqFM : findMatch ref tc hIou lIou hConf lConf st dis dets =
      tier1Scan ref tc hIou (dets.filter fun d => decide (hConf ≤ d.confidence))
        (none, 0) := by
    simp [findMatch, hm]
  exact ⟨m, by rw [heqFM]; exact hm, hconf, heqFM⟩

/-- A high-confidence same-class detection with IoU `3/5` against `tierRef`. -/
def dHighW : DetectionBox := ⟨0, 0, 10, 6, 0.9, 1, "cat"⟩

/-- A low-confidence same-class detection with strictly larger IoU `4/5`. -/
def dLowW : DetectionBox := ⟨0, 0, 10, 8, 0.3, 1, "cat"⟩

/-- Witness for C5 at a concrete high/low detection pair. -/
theorem tierPrecedenceHighBeatsLowWitness :
    findMatch tierRef 1 0.3 0.15 0.5 0.25 TrackState.tracked 0 [dHighW, dLowW] =
      tier1Scan tierRef 1 0.3
        ([dHighW, dLowW].filter fun d => decide ((0.5 : ℚ) ≤ d.confidence)) (none, 0) := by
  obtain ⟨m, hm1, hm2, heq⟩ := tierPrecedenceHighBeatsLow tierRef 1 0.3 0.15 0.5 0.25
    TrackState.tracked 0 [dHighW, dLowW] (by norm_num) dHighW (by simp)
    (by norm_num [dHighW]) rfl
    (by norm_num [calculateIou, tierRef, dHighW, DetectionBox.toBBox])
    dLowW (by simp) (by norm_num [dLowW]) (by norm_num [dLowW]) rfl
    (by norm_num [calculateIou, tierRef, dHighW, dLowW, DetectionBox.toBBox])
  exact heq

set_option maxHeartbeats 1000000 in
/-- One covariance prediction step `F·P·Fᵀ + Q` on a block-sparse `P`:
each 2×2 block evolves by the constant-velocity update, with process noise
`0.1` on the position diagonal and `0.001` on the velocity diagonal. -/
theorem predict_Pblock (a b c : Fin 4 → ℚ) :
    Fmat * Pblock a b c * Fmat.transpose + Qmat =
      Pblock (fun i => a i + 2 * b i + c i + 0.1) (fun i => b i + c i)
        (fun i => c i + 0.001) := by
  ext i j
  fin_cases i <;> fin_cases j <;>
    simp [Matrix.mul_apply, Fin.sum_univ_eight, Fmat, fEntry, Qmat, qEntry, Pblock,
      Matrix.transpose_apply, Matrix.of_apply, Matrix.add_apply] <;>
    ring

/-- The innovation covariance `H·P·Hᵀ + R` of a block-sparse `P` is the
diagonal matrix `a i + 10`. -/
theorem S_eq (a b c : Fin 4 → ℚ) :
    Hmat * Pblock a b c * Hmat.transpose + Rmat =
      Matrix.diagonal (fun i => a i + 10) := by
  ext i j
  fin_cases i <;> fin_cases j <;>
    simp [Matrix.mul_apply, Fin.sum_univ_eight, Fin.sum_univ_four, Hmat, hEntry, Rmat,
      Pblock, Matrix.transpose_apply, Matrix.of_apply, Matrix.add_apply,
      Matrix.diagonal]

/-- The adjugate-formula inverse of a diagonal matrix with nonzero entries
is the diagonal of the entrywise inverses. -/
theorem inv4_diagonal (v : Fin 4 → ℚ) (hv : ∀ i, v i ≠ 0) :
    inv4 (Matrix.diagonal v) = Matrix.diagonal fun i => (v i)⁻¹ := by
  unfold inv4
  rw [Matrix.det_diagonal, Matrix.adjugate_diagonal]
  ext i j
  rcases eq_or_ne i j with rfl | hij
  · have hsplit : ∏ k, v k = v i * ∏ k ∈ Finset.univ.erase i, v k :=
      (Finset.mul_prod_erase _ _ (Finset.mem_univ i)).symm
    have hprod : (∏ k ∈ Finset.univ.erase i, v k) ≠ 0 :=
      Finset.prod_ne_zero_iff.mpr fun k _ => hv k
    simp only [Matrix.smul_apply, Matrix.diagonal_apply_eq, smul_eq_mul, hsplit]
    rw [mul_inv, mul_assoc, inv_mul_cancel₀ hprod, mul_one]
  · simp [Matrix.smul_apply, Matrix.diagonal_apply_ne' v hij, Matrix.diagonal_apply_ne _ hij]

set_option maxHeartbeats 3000000 in
/-- One covariance correction step `P − K·H·P` on a block-sparse `P` with
nonnegative position variances. -/
theorem update_Pblock (a b c : Fin 4 → ℚ) (ha : ∀ i, 0 ≤ a i) :
    Pblock a b c - Pblock a b c * Hmat.transpose *
        inv4 (Hmat * Pblock a b c * Hmat.transpose + Rmat) * Hmat * Pblock a b c =
      Pblock (fun i => a i - a i * (a i + 10)⁻¹ * a i)
        (fun i => b i - a i * (a i + 10)⁻¹ * b i)
        (fun i => c i - b i * (a i + 10)⁻¹ * b i) := by
  have h10 : ∀ i, a i + 10 ≠ 0 := fun i => ne_of_gt (by have := ha i; linarith)
  rw [S_eq, inv4_diagonal _ h10]
  ext i j
  fin_cases i <;> fin_cases j <;>
    simp [Matrix.mul_apply, Fin.sum_univ_eight, Fin.sum_univ_four, Hmat, hEntry,
      Pblock, Matrix.transpose_apply, Matrix.of_apply, Matrix.sub_apply,
      Matrix.diagonal, Matrix.mul_diagonal] <;>
    ring

/-- Prediction on an unseeded filter leaves it unchanged. -/
theorem kfPredict_unchanged (kf : KalmanFilter) (h : kf.isInit = false) :
    kf.predict.2 = kf := by
  unfold KalmanFilter.predict
  rw [if_pos h]

/-- The covariance after a prediction step on a seeded filter. -/
theorem kfPredict_P (kf : KalmanFilter) (h : kf.isInit = true) :
    kf.predict.2.P = Fmat * kf.P * Fmat.transpose + Qmat := by
  unfold KalmanFilter.predict
  rw [if_neg (by simp [h])]

/-- The covariance after a correction step on a seeded filter. -/
theorem kfUpdate_P (kf : KalmanFilter) (b : BBox) (h : kf.isInit = true) :
    (kf.update b).P = kf.P - kf.P * Hmat.transpose *
      inv4 (Hmat * kf.P * Hmat.transpose + Rmat) * Hmat * kf.P := by
  unfold KalmanFilter.update
  rw [if_neg (by simp [h])]

/-- Correction on an unseeded filter seeds instead and leaves `P` alone. -/
theorem kfUpdate_P_seed (kf : KalmanFilter) (b : BBox) (h : kf.isInit = false) :
    (kf.update b).P = kf.P := by
  unfold KalmanFilter.update KalmanFilter.seed
  rw [if_pos h]

/-- The initial covariance `1000·I` in block form. -/
theorem P0mat_block :
    P0mat = Pblock (fun _ => 1000) (fun _ => 0) (fun _ => 1000) := by
  ext i j
  fin_cases i <;> fin_cases j <;>
    simp [P0mat, Pblock, Matrix.of_apply]

/-- Every covariance reachable by the filter's operations satisfies the
block invariant: block-sparse, entrywise nonnegative blocks, each block
positive semidefinite. -/
theorem reachable_PblockInv (kf : KalmanFilter) (h : KalmanReachable kf) :
    PblockInv kf.P := by
  induction h with
  | base =>
    refine ⟨fun _ => 1000, fun _ => 0, fun _ => 1000, P0mat_block, fun i => ?_⟩
    norm_num
  | seed kf b _ ih => exact ih
  | predict kf _ ih =>
    cases hInit : kf.isInit with
    | false => rw [kfPredict_unchanged kf hInit]; exact ih
    | true =>
      obtain ⟨a, b, c, hP, hineq⟩ := ih
      rw [kfPredict_P kf hInit, hP, predict_Pblock]
      refine ⟨_, _, _, rfl, fun i => ?_⟩
      obtain ⟨ha, hb, hc, hpsd⟩ := hineq i
      refine ⟨by linarith, by linarith, by linarith, ?_⟩
      nlinarith [hpsd, ha, hb, hc, mul_nonneg hb hc, mul_nonneg ha hc, sq_nonneg (b i + c i)]
  | update kf b _ ih =>
    cases hInit : kf.isInit with
    | false => rw [kfUpdate_P_seed kf b hInit]; exact ih
    | true =>
      obtain ⟨a, bb, c, hP, hineq⟩ := ih
      have ha : ∀ i, 0 ≤ a i := fun i => (hineq i).1
      rw [kfUpdate_P kf b hInit, hP, update_Pblock a bb c ha]
      refine ⟨_, _, _, rfl, fun i => ?_⟩
      obtain ⟨hai, hbi, hci, hpsd⟩ := hineq i
      have hpos : (0 : ℚ) < a i + 10 := by linarith
      have hg : (0 : ℚ) < (a i + 10)⁻¹ := inv_pos.mpr hpos
      have hne : a i + 10 ≠ 0 := ne_of_gt hpos
      have hea : a i - a i * (a i + 10)⁻¹ * a i = 10 * a i * (a i + 10)⁻¹ := by
        field_simp
        ring
      have heb : bb i - a i * (a i + 10)⁻¹ * bb i = 10 * bb i * (a i + 10)⁻¹ := by
        field_simp
        ring
      have hkey : 0 ≤ c i * (a i + 10) - bb i ^ 2 := by nlinarith [hpsd, hci]
      have hec : c i - bb i * (a i + 10)⁻¹ * bb i =
          (c i * (a i + 10) - bb i ^ 2) * (a i + 10)⁻¹ := by
        field_simp
        ring
      refine ⟨?_, ?_, ?_, ?_⟩
      · rw [hea]
        positivity
      · rw [heb]
        positivity
      · rw [hec]
        positivity
      · rw [hea, heb, hec]
        have hkey2 : 100 * bb i ^ 2 ≤ 10 * a i * (c i * (a i + 10) - bb i ^ 2) := by
          nlinarith [hpsd, hai, hpos, mul_nonneg hai hci,
            mul_nonneg (le_of_lt hpos) (by nlinarith [hpsd] : 0 ≤ a i * c i - bb i ^ 2)]
        nlinarith [mul_le_mul_of_nonneg_right hkey2 (sq_nonneg ((a i + 10)⁻¹)), hg,
          sq_nonneg ((a i + 10)⁻¹)]

/-- On any reachable filter state a single `predict()` never decreases the
position-diagonal entries of `P`. -/
theorem predict_P_mono (kf : KalmanFilter) (h : KalmanReachable kf) (i : Fin 8)
    (hi : i.val < 4) : kf.P i i ≤ kf.predict.2.P i i := by
  cases hInit : kf.isInit with
  | false => rw [kfPredict_unchanged kf hInit]
  | true =>
    obtain ⟨a, b, c, hP, hineq⟩ := reachable_PblockInv kf h
    rw [kfPredict_P kf hInit, hP, predict_Pblock]
    have hmod : i.val % 4 < 4 := Nat.mod_lt _ (by norm_num)
    obtain ⟨ha, hb, hc, _⟩ := hineq ⟨i.val % 4, hmod⟩
    simp only [Pblock, Matrix.of_apply, eq_self_iff_true, if_true, if_pos hi]
    linarith

/-- Iterated prediction stays within the reachable states. -/
theorem predictIter_reachable (kf : KalmanFilter) (h : KalmanReachable kf) (n : ℕ) :
    KalmanReachable (predictIter kf n) := by
  induction n with
  | zero => exact h
  | succ n ih => exact KalmanReachable.predict _ ih

/-- C8: for every covariance state reachable by the filter's operations,
calling `predict()` any number of consecutive times with no intervening
`update()` never decreases the four position-diagonal entries of `P`
(indices 0..3) from one call to the next. -/
theorem predictUncertaintyGrowth (kf : KalmanFilter) (h : KalmanReachable kf)
    (n : ℕ) (i : Fin 8) (hi : i.val < 4) :
    (predictIter kf n).P i i ≤ (predictIter kf (n + 1)).P i i :=
  predict_P_mono (predictIter kf n) (predictIter_reachable kf h n) i hi

/-- Witness for C8 at the fresh filter, first predict call, entry 0. -/
theorem predictUncertaintyGrowthWitness :
    (predictIter KalmanFilter.new 0).P 0 0 ≤ (predictIter KalmanFilter.new 1).P 0 0 :=
  predictUncertaintyGrowth KalmanFilter.new KalmanReachable.base 0 0 (by decide)
